import Mathlib

/-!
# A verified model of the `assistant.py` voice-assistant script

This file gives a shallow embedding, in Lean, of the pure core of the
`ShreeVoice` assistant: Python strings are modelled as `List Char`, the
JSON values handled by `json.dumps` / `json.loads` as an inductive `Json`
type, the todo file as a map from path strings to file contents, and every
external effect (browser launch, speech, the OpenAI and Wikipedia backends,
the clock, I/O failures) as an explicit oracle argument.  Python exceptions
are modelled with `Except`: a handler that Python code does not catch shows
up as an `Except.error` result.

Modelling conventions, noted where they matter:
* `str.lower()` is modelled on ASCII letters only (the command keywords are
  all ASCII; full Unicode case mapping is out of scope).
* `json.dumps(data, indent=2)` is mirrored exactly, including the
  `ensure_ascii` escaping of every character outside printable ASCII
  (`\uXXXX`, with surrogate pairs above U+FFFF).
* `json.loads` is mirrored for the integer/string/array/object fragment;
  floats are out of scope (no claim involves them), and lone surrogates are
  rejected because a Lean `Char` cannot carry one.
-/

/-- A Python `str`, modelled as its list of Unicode scalar values. -/
abbrev PyStr := List Char

/-- Python `str.strip()` whitespace test, restricted to the ASCII range
(space, tab, newline, carriage return, vertical tab, form feed). -/
def isPySpace (c : Char) : Bool :=
  decide (c.toNat = 32 ∨ c.toNat = 9 ∨ c.toNat = 10 ∨ c.toNat = 13
    ∨ c.toNat = 11 ∨ c.toNat = 12)

/-- ASCII-range model of the per-character case map used by `str.lower()`. -/
def lowerChar (c : Char) : Char :=
  if 65 ≤ c.toNat ∧ c.toNat ≤ 90 then Char.ofNat (c.toNat + 32) else c

/-- `text.lower()`. -/
def pyLower (s : PyStr) : PyStr := s.map lowerChar

/-- `text.strip()`: drop whitespace from both ends. -/
def pyStrip (s : PyStr) : PyStr :=
  ((s.dropWhile isPySpace).reverse.dropWhile isPySpace).reverse

/-- `target.replace(' ', '+')` (single-character replacement is a map). -/
def pyPlusSpaces (s : PyStr) : PyStr :=
  s.map (fun c => if c = ' ' then '+' else c)

/-- A JSON value, as produced by `json.loads`.  Numbers are modelled as
integers: the program never writes a float, and no claim involves one. -/
inductive Json where
  | null
  | bool (b : Bool)
  | num (n : Int)
  | str (s : PyStr)
  | arr (xs : List Json)
  | obj (kvs : List (PyStr × Json))

/-- The record appended by `_add_todo`:
`{"item": item, "added_at": datetime.now().isoformat()}` (section 3 of the
spec calls this a TodoRecord). -/
structure TodoRecord where
  item : PyStr
  added_at : PyStr

/-- The JSON object a `TodoRecord` is stored as, key order as written. -/
def encodeRec (r : TodoRecord) : Json :=
  .obj [("item".data, .str r.item), ("added_at".data, .str r.added_at)]

/-- A whole todo sequence as the JSON array `json.dumps` receives. -/
def encodeTodos (l : List TodoRecord) : Json := .arr (l.map encodeRec)

/-! ## `json.dumps(data, indent=2)` -/

/-- Lower-case hex digit, as CPython's `'\u%04x'` formatting produces. -/
def hexDigitChar (d : Nat) : Char :=
  if d < 10 then Char.ofNat (48 + d) else Char.ofNat (87 + d)

/-- The four hex digits of `n < 0x10000`, most significant first. -/
def u4 (n : Nat) : PyStr :=
  [hexDigitChar (n / 4096 % 16), hexDigitChar (n / 256 % 16),
   hexDigitChar (n / 16 % 16), hexDigitChar (n % 16)]

/-- One character of JSON string output under `ensure_ascii=True`: the two
obligatory escapes, the five short escapes, printable ASCII verbatim, and
`\uXXXX` (a surrogate pair above U+FFFF) for everything else. -/
def escChar (c : Char) : PyStr :=
  if c = '\"' then ['\\', '\"']
  else if c = '\\' then ['\\', '\\']
  else if c = '\n' then ['\\', 'n']
  else if c = '\t' then ['\\', 't']
  else if c = '\r' then ['\\', 'r']
  else if c = '\x08' then ['\\', 'b']
  else if c = '\x0c' then ['\\', 'f']
  else if 0x20 ≤ c.toNat ∧ c.toNat ≤ 0x7e then [c]
  else if c.toNat < 0x10000 then '\\' :: 'u' :: u4 c.toNat
  else '\\' :: 'u' :: u4 (0xd800 + (c.toNat - 0x10000) / 0x400)
    ++ '\\' :: 'u' :: u4 (0xdc00 + (c.toNat - 0x10000) % 0x400)

/-- JSON-escape a whole string body. -/
def escList : PyStr → PyStr
  | [] => []
  | c :: cs => escChar c ++ escList cs

/-- A JSON string literal: quote, escaped body, quote. -/
def dq (s : PyStr) : PyStr := '\"' :: (escList s ++ ['\"'])

/-- The indentation prefix at nesting level `lv` for `indent=2`. -/
def ind (lv : Nat) : PyStr := List.replicate (2 * lv) ' '

mutual
/-- `json.dumps(j, indent=2)` at nesting level `lv`: scalar atoms, and
containers whose entries sit on their own lines one level deeper, exactly as
CPython lays them out (`", "`-free item separator `",\n" + indent`, key
separator `": "`, empty containers printed inline). -/
def dumpVal : Json → Nat → PyStr
  | .null, _ => "null".data
  | .bool true, _ => "true".data
  | .bool false, _ => "false".data
  | .num n, _ => (toString n).data
  | .str s, _ => dq s
  | .arr [], _ => "[]".data
  | .arr (x :: xs), lv =>
    '[' :: '\n' :: (ind (lv + 1) ++ dumpVal x (lv + 1) ++ dumpItems xs (lv + 1)
      ++ '\n' :: (ind lv ++ [']']))
  | .obj [], _ => "\x7b\x7d".data
  | .obj (kv :: kvs), lv =>
    '\x7b' :: '\n' :: (ind (lv + 1) ++ dq kv.1 ++ ':' :: ' ' ::
      (dumpVal kv.2 (lv + 1) ++ dumpMembers kvs (lv + 1) ++ '\n' :: (ind lv ++ ['\x7d'])))
/-- The remaining array items, each preceded by `",\n" + indent`. -/
def dumpItems : List Json → Nat → PyStr
  | [], _ => []
  | x :: xs, lv => ',' :: '\n' :: (ind lv ++ dumpVal x lv ++ dumpItems xs lv)
/-- The remaining object members, each preceded by `",\n" + indent`. -/
def dumpMembers : List (PyStr × Json) → Nat → PyStr
  | [], _ => []
  | kv :: kvs, lv =>
    ',' :: '\n' :: (ind lv ++ dq kv.1 ++ ':' :: ' ' :: (dumpVal kv.2 lv ++ dumpMembers kvs lv))
end

/-- `json.dumps(data, indent=2)`, as `save_json` calls it. -/
def dumps (j : Json) : PyStr := dumpVal j 0

/-! ## `json.loads` -/

/-- JSON inter-token whitespace (CPython strips `[ \t\n\r]*`). -/
def isJsonWs (c : Char) : Bool :=
  decide (c.toNat = 32 ∨ c.toNat = 9 ∨ c.toNat = 10 ∨ c.toNat = 13)

/-- Skip inter-token whitespace. -/
def skipWs (s : PyStr) : PyStr := s.dropWhile isJsonWs

/-- ASCII decimal digit test. -/
def isDigitCh (c : Char) : Bool := decide (48 ≤ c.toNat ∧ c.toNat ≤ 57)

/-- The value of a run of decimal digits. -/
def digitsVal (ds : PyStr) : Nat := ds.foldl (fun a c => a * 10 + (c.toNat - 48)) 0

/-- Parse an integer literal (optional minus sign, then digits). -/
def pNum : PyStr → Option (Json × PyStr)
  | '-' :: s =>
    let ds := s.takeWhile isDigitCh
    if ds.isEmpty then none
    else some (.num (-(digitsVal ds : Int)), s.dropWhile isDigitCh)
  | s =>
    let ds := s.takeWhile isDigitCh
    if ds.isEmpty then none else some (.num (digitsVal ds), s.dropWhile isDigitCh)

/-- The eight one-character JSON escapes. -/
def simpleEsc : Char → Option Char
  | '\"' => some '\"'
  | '\\' => some '\\'
  | '/' => some '/'
  | 'b' => some '\x08'
  | 'f' => some '\x0c'
  | 'n' => some '\n'
  | 'r' => some '\r'
  | 't' => some '\t'
  | _ => none

/-- The value of one hex digit, either case. -/
def hexVal (c : Char) : Option Nat :=
  if '0' ≤ c ∧ c ≤ '9' then some (c.toNat - 48)
  else if 'a' ≤ c ∧ c ≤ 'f' then some (c.toNat - 87)
  else if 'A' ≤ c ∧ c ≤ 'F' then some (c.toNat - 55)
  else none

/-- The value of a four-hex-digit group, as in `\uXXXX`. -/
def hex4 (a b c d : Char) : Option Nat :=
  (hexVal a).bind (fun x => (hexVal b).bind (fun y =>
    (hexVal c).bind (fun z => (hexVal d).map (fun w =>
      x * 4096 + y * 256 + z * 16 + w))))

mutual
/-- Scan a JSON string body after the opening quote, in strict mode: raw
control characters are rejected, a backslash hands over to the escape
scanner.  (CPython would let a lone surrogate `\uXXXX` through; a Lean
`Char` cannot carry one, so the model rejects it — `dumps` never emits
one.) -/
def pStrAux : PyStr → Option (PyStr × PyStr)
  | [] => none
  | c :: rest =>
    if c = '\"' then some ([], rest)
    else if c = '\\' then pEscSeq rest
    else if c.toNat < 0x20 then none
    else (pStrAux rest).map (fun p => (c :: p.1, p.2))
termination_by s => s.length
decreasing_by all_goals simp [List.length_cons]
/-- The text after a backslash: `u` starts a hex escape, anything else must
be one of the eight simple escapes. -/
def pEscSeq : PyStr → Option (PyStr × PyStr)
  | [] => none
  | e :: rest1 =>
    if e = 'u' then pHexSeq rest1
    else
      match simpleEsc e with
      | some ec => (pStrAux rest1).map (fun p => (ec :: p.1, p.2))
      | none => none
termination_by s => s.length
decreasing_by all_goals simp [List.length_cons]
/-- The four hex digits after `\u`; a high surrogate value must be followed
by a matching low escape. -/
def pHexSeq : PyStr → Option (PyStr × PyStr)
  | a :: b :: c2 :: d :: rest2 =>
    match hex4 a b c2 d with
    | none => none
    | some n =>
      if n < 0xd800 ∨ 0xe000 ≤ n then
        (pStrAux rest2).map (fun p => (Char.ofNat n :: p.1, p.2))
      else if n < 0xdc00 then pPairSeq n rest2
      else none
  | _ => none
termination_by s => s.length
decreasing_by all_goals (simp [List.length_cons]; omega)
/-- The `\uXXXX` low-surrogate escape expected after a high surrogate `n`;
the two combine into one astral character. -/
def pPairSeq : Nat → PyStr → Option (PyStr × PyStr)
  | n, b1 :: b2 :: a2 :: b3 :: c3 :: d2 :: rest3 =>
    if b1 = '\\' ∧ b2 = 'u' then
      match hex4 a2 b3 c3 d2 with
      | none => none
      | some m =>
        if 0xdc00 ≤ m ∧ m < 0xe000 then
          (pStrAux rest3).map (fun p =>
            (Char.ofNat ((n - 0xd800) * 0x400 + (m - 0xdc00) + 0x10000) :: p.1, p.2))
        else none
    else none
  | _, _ => none
termination_by _ s => s.length
decreasing_by all_goals (simp [List.length_cons]; omega)
end

/-- `true` after its leading `t`. -/
def pTrue : PyStr → Option (Json × PyStr)
  | c1 :: c2 :: c3 :: r =>
    if c1 = 'r' ∧ c2 = 'u' ∧ c3 = 'e' then some (.bool true, r) else none
  | _ => none

/-- `false` after its leading `f`. -/
def pFalse : PyStr → Option (Json × PyStr)
  | c1 :: c2 :: c3 :: c4 :: r =>
    if c1 = 'a' ∧ c2 = 'l' ∧ c3 = 's' ∧ c4 = 'e' then some (.bool false, r) else none
  | _ => none

/-- `null` after its leading `n`. -/
def pNull : PyStr → Option (Json × PyStr)
  | c1 :: c2 :: c3 :: r =>
    if c1 = 'u' ∧ c2 = 'l' ∧ c3 = 'l' then some (.null, r) else none
  | _ => none

mutual
/-- Parse one JSON value (recursive descent; `fuel` only bounds the
recursion and is set generously by `loads`). -/
def pVal : Nat → PyStr → Option (Json × PyStr)
  | 0, _ => none
  | f + 1, s =>
    match skipWs s with
    | [] => none
    | c :: rest =>
      if c = '\"' then (pStrAux rest).map (fun p => (.str p.1, p.2))
      else if c = '[' then pArr f rest
      else if c = '\x7b' then pObj f rest
      else if c = 't' then pTrue rest
      else if c = 'f' then pFalse rest
      else if c = 'n' then pNull rest
      else pNum (c :: rest)
/-- The text after `[`: either a closing `]` right away, or the items. -/
def pArr : Nat → PyStr → Option (Json × PyStr)
  | 0, _ => none
  | f + 1, rest =>
    match skipWs rest with
    | r0 :: r =>
      if r0 = ']' then some (.arr [], r)
      else (pItems f rest).map (fun p => (.arr p.1, p.2))
    | [] => (pItems f rest).map (fun p => (.arr p.1, p.2))
/-- The text after a `{`: either a closing brace right away, or the members. -/
def pObj : Nat → PyStr → Option (Json × PyStr)
  | 0, _ => none
  | f + 1, rest =>
    match skipWs rest with
    | r0 :: r =>
      if r0 = '\x7d' then some (.obj [], r)
      else (pMembers f rest).map (fun p => (.obj p.1, p.2))
    | [] => (pMembers f rest).map (fun p => (.obj p.1, p.2))
/-- Parse the items of a non-empty array up to and past the closing `]`. -/
def pItems : Nat → PyStr → Option (List Json × PyStr)
  | 0, _ => none
  | f + 1, s =>
    match pVal f s with
    | none => none
    | some (v, r) =>
      match skipWs r with
      | r0 :: r2 =>
        if r0 = ',' then (pItems f r2).map (fun p => (v :: p.1, p.2))
        else if r0 = ']' then some ([v], r2)
        else none
      | [] => none
/-- Parse the members of a non-empty object up to and past the closing brace. -/
def pMembers : Nat → PyStr → Option (List (PyStr × Json) × PyStr)
  | 0, _ => none
  | f + 1, s =>
    match skipWs s with
    | s0 :: r =>
      if s0 = '\"' then
        match pStrAux r with
        | none => none
        | some (k, r1) =>
          match skipWs r1 with
          | t0 :: r2 =>
            if t0 = ':' then
              match pVal f r2 with
              | none => none
              | some (v, r3) =>
                match skipWs r3 with
                | u0 :: r4 =>
                  if u0 = ',' then (pMembers f r4).map (fun p => ((k, v) :: p.1, p.2))
                  else if u0 = '\x7d' then some ([(k, v)], r4)
                  else none
                | [] => none
            else none
          | [] => none
      else none
    | [] => none
end

/-- `json.loads`: parse one document and insist nothing but whitespace
follows it.  `none` models a raised `JSONDecodeError`. -/
def loads (s : PyStr) : Option Json :=
  match pVal (s.length + 1) s with
  | none => none
  | some (v, r) => if skipWs r = [] then some v else none

/-! ## Persistence helpers (`load_json`, `save_json`) -/

/-- The file system visible to the script: contents by path. -/
abbrev FileSys := String → Option PyStr

/-- `DATA_DIR / "todo.json"`; the home-relative path is one fixed key here. -/
def TODO_FILE : String := "~/.shree_voice/todo.json"

/-- `load_json(path, default)`: if the file exists, try to read and parse
it, and on *any* failure (`readFails` models `read_text` raising; a `loads`
failure models malformed JSON) return `default`; if the file does not exist,
return `default`.  Total: no failure escapes. -/
def load_json (fs : FileSys) (readFails : Bool) (path : String) (default : Json) : Json :=
  match fs path with
  | none => default
  | some text => if readFails then default else (loads text).getD default

/-- `save_json(path, data)`: write `json.dumps(data, indent=2)`; if the
write raises (`saveFails`), print the diagnostic line and return with the
file system unchanged.  Returns the new file system and the printed lines. -/
def save_json (fs : FileSys) (saveFails : Bool) (path : String) (data : Json) :
    FileSys × List PyStr :=
  if saveFails then (fs, [("Error saving " ++ path).data])
  else (fun p => if p = path then some (dumps data) else fs p, [])

/-! ## The assistant (`ShreeVoice`) -/

/-- One entry of `self.chat_history`. -/
structure Msg where
  role : PyStr
  content : PyStr

/-- Outcome of one `openai.ChatCompletion.create` call plus the reply
extraction: either the reply content, or any raised exception. -/
inductive ChatOutcome where
  | reply (text : PyStr)
  | failure

/-- Outcome of one `wikipedia.summary(prompt, sentences=2)` call. -/
inductive WikiOutcome where
  | summary (text : PyStr)
  | disambig (options : List PyStr)
  | pageNotFound
  | failure

/-- Which optional backends the process has: `openai_on` is
`openai and self.openai_key` (module imported *and* credential set),
`wikipedia_on` is the `wikipedia` import having succeeded. -/
structure Config where
  openai_on : Bool
  wikipedia_on : Bool

/-- The world outside the pure code, one cycle's worth: whether
`webbrowser.open` raises (and with what message), whether the todo-file
write raises, `datetime.now().isoformat()`, and the two backends. -/
structure Oracle where
  browserFails : Option PyStr
  saveFails : Bool
  now : PyStr
  chat : ChatOutcome
  wiki : WikiOutcome

/-- Side effects a call performed: URLs opened in the browser and
diagnostic lines printed. -/
structure Effects where
  opens : List PyStr := []
  logs : List PyStr := []

/-- A Python exception, as far as this model distinguishes them. -/
inductive PyErr where
  | keyError (key : PyStr)
  | typeError
  | browserError (msg : PyStr)

/-- The assistant's mutable state: `todo_list` (elements are whatever JSON
values the file gave; `_add_todo` appends objects), `self.chat_history`,
and the file system it writes through. -/
structure AState where
  todos : List Json
  hist : List Msg
  fs : FileSys

/-- The fixed shortcut table of `_open_website`. -/
def shortcuts : List (PyStr × PyStr) :=
  [("youtube".data, "https://www.youtube.com".data),
   ("google".data, "https://www.google.com".data),
   ("github".data, "https://github.com".data)]

/-- The search URL built for an unmatched name. -/
def searchUrl (target : PyStr) : PyStr :=
  "https://www.google.com/search?q=".data ++ pyPlusSpaces target

/-- `shortcuts.get(target.lower(), search_url)`. -/
def resolveUrl (target : PyStr) : PyStr :=
  match shortcuts.find? (fun kv => decide (kv.1 = pyLower target)) with
  | some kv => kv.2
  | none => searchUrl target

/-- `_open_website(target)`: resolve the URL and call `webbrowser.open` on
it.  The source wraps that call in no handler, so a raise propagates out as
`Except.error` and no reply is produced; on success exactly one URL is
opened and the reply `"Opening {target}"` is returned. -/
def open_website (browserFails : Option PyStr) (target : PyStr) :
    Effects × Except PyErr PyStr :=
  match browserFails with
  | some msg => ({}, .error (.browserError msg))
  | none => ({opens := [resolveUrl target]}, .ok ("Opening ".data ++ target))

/-- `_add_todo(item)`: append the record, save the whole list at once, and
reply with the echo.  A save failure is absorbed inside `save_json`. -/
def add_todo (o : Oracle) (st : AState) (item : PyStr) :
    AState × Effects × Except PyErr PyStr :=
  let todos2 := st.todos ++ [encodeRec ⟨item, o.now⟩]
  let saved := save_json st.fs o.saveFails TODO_FILE (.arr todos2)
  ({st with todos := todos2, fs := saved.1}, {logs := saved.2},
   .ok ("Added to your todo list: ".data ++ item))

/-- `it['item']` on an arbitrary JSON value: a KeyError on an object
without the key, a TypeError on a non-object. -/
def pyGetItem (v : Json) (key : PyStr) : Except PyErr Json :=
  match v with
  | .obj kvs =>
    match kvs.find? (fun kv => decide (kv.1 = key)) with
    | some kv => .ok kv.2
    | none => .error (.keyError key)
  | _ => .error .typeError

/-- `str(v)` as the f-string applies it.  Scalars are exact; the container
cases are placeholders (Python would print a `repr`), reached by no claim:
every stored `item` value is a string. -/
def pyStrFormat : Json → PyStr
  | .str s => s
  | .num n => (toString n).data
  | .bool true => "True".data
  | .bool false => "False".data
  | .null => "None".data
  | .arr _ => "<list>".data
  | .obj _ => "<dict>".data

/-- `_list_todo()`: the fixed message on an empty list, otherwise
`"Here are your todos: "` followed by the `"; "`-joined, 1-indexed items.
The generator's `it['item']` can raise, which propagates (`Except`). -/
def list_todo (todos : List Json) : Except PyErr PyStr :=
  if todos.isEmpty then .ok "Your todo list is empty.".data
  else
    (todos.enum.mapM (fun p => (pyGetItem p.2 "item".data).map
        (fun v => (toString (p.1 + 1)).data ++ '.' :: ' ' :: pyStrFormat v))).map
      (fun parts => "Here are your todos: ".data ++ List.intercalate "; ".data parts)

/-- The fixed generic apology `_answer_with_ai` falls back to. -/
def apology : PyStr := "Sorry, I couldn’t find an answer.".data

/-- The Wikipedia arm of `_answer_with_ai`: `some reply` when that arm
returns, `none` when it is skipped (module missing) or silently passes. -/
def wiki_fallback (cfg : Config) (w : WikiOutcome) : Option PyStr :=
  if cfg.wikipedia_on then
    match w with
    | .summary text => some text
    | .disambig options =>
      some ("Your query is ambiguous. Try one of these: ".data
        ++ List.intercalate ", ".data (options.take 5))
    | .pageNotFound => some "I couldn't find anything on Wikipedia.".data
    | .failure => none
  else none

/-- `_answer_with_ai(prompt)`: with a credential, append the user turn and
try the chat call — on success strip, record and return the reply, on any
failure fall through (the user turn stays recorded); then the Wikipedia
arm; finally the fixed apology.  Every arm catches its exceptions, so the
function is total: it always returns a reply and the updated history. -/
def answer_with_ai (cfg : Config) (o : Oracle) (prompt : PyStr) (hist : List Msg) :
    PyStr × List Msg :=
  if cfg.openai_on then
    match o.chat with
    | .reply text =>
      let reply := pyStrip text
      (reply, hist ++ [⟨"user".data, prompt⟩, ⟨"assistant".data, reply⟩])
    | .failure =>
      let hist2 := hist ++ [⟨"user".data, prompt⟩]
      match wiki_fallback cfg o.wiki with
      | some s => (s, hist2)
      | none => (apology, hist2)
  else
    match wiki_fallback cfg o.wiki with
    | some s => (s, hist)
    | none => (apology, hist)

/-- `handle_command(text)`: the router.  Matching runs on
`text.lower().strip()` in the source's order; the slices `text[5:]` and
`text[9:]` are taken from the *original* `text`, exactly as in the source.
Returns the state after the call, the effects performed, and the reply —
or the exception that escaped. -/
def handle_command (cfg : Config) (o : Oracle) (st : AState) (text : PyStr) :
    AState × Effects × Except PyErr PyStr :=
  let lower := pyStrip (pyLower text)
  if lower = "hi".data ∨ lower = "hello".data ∨ lower = "hey".data then
    (st, {}, .ok "Hello! How are you today?".data)
  else if "open ".data.isPrefixOf lower then
    let r := open_website o.browserFails (pyStrip (text.drop 5))
    (st, r.1, r.2)
  else if "add todo ".data.isPrefixOf lower then
    add_todo o st (pyStrip (text.drop 9))
  else if lower = "list todo".data ∨ lower = "show todo".data ∨ lower = "todos".data then
    (st, {}, list_todo st.todos)
  else
    let r := answer_with_ai cfg o text st.hist
    ({st with hist := r.2}, {}, .ok r.1)

/-- What a whole run spoke, ended with, and did. -/
structure RunOut where
  spoken : List PyStr
  final : AState
  eff : Effects

/-- No effects. -/
def noEff : Effects := {}

/-- Concatenate effect records in order. -/
def appendEff (a b : Effects) : Effects :=
  {opens := a.opens ++ b.opens, logs := a.logs ++ b.logs}

/-- The `while self.running` loop of `run`, driven by a script of
`listen()` results (`none` for a timeout / unrecognized cycle; the loop
just re-listens).  An empty reply is also skipped (`if not text`).  An exit
phrase speaks the farewell once and stops — the rest of the script is never
consumed.  Otherwise the text is routed and the reply spoken; an exception
escaping `handle_command` aborts the run, as it would the Python process.
The oracle is held fixed across cycles (enough for every claim below). -/
def runLoop (cfg : Config) (o : Oracle) (st : AState) :
    List (Option PyStr) → Except PyErr RunOut
  | [] => .ok ⟨[], st, noEff⟩
  | none :: rest => runLoop cfg o st rest
  | some text :: rest =>
    if text = [] then runLoop cfg o st rest
    else if pyStrip (pyLower text) = "exit".data ∨ pyStrip (pyLower text) = "quit".data
        ∨ pyStrip (pyLower text) = "stop".data ∨ pyStrip (pyLower text) = "goodbye".data then
      .ok ⟨["Goodbye! Have a great day!".data], st, noEff⟩
    else
      match handle_command cfg o st text with
      | (_, _, .error e) => .error e
      | (st2, eff, .ok reply) =>
        match runLoop cfg o st2 rest with
        | .error e => .error e
        | .ok out => .ok ⟨reply :: out.spoken, out.final, appendEff eff out.eff⟩

/-- `run()`: greet; if the listener is unavailable speak the notice and
return; otherwise run the loop. -/
def run (cfg : Config) (o : Oracle) (listenerOk : Bool) (st : AState)
    (inputs : List (Option PyStr)) : Except PyErr RunOut :=
  let greet := "Hello! I'm your assistant. You can just start talking to me.".data
  if listenerOk then
    match runLoop cfg o st inputs with
    | .error e => .error e
    | .ok out => .ok ⟨greet :: out.spoken, out.final, out.eff⟩
  else .ok ⟨[greet, "Speech recognition isn't available.".data], st, noEff⟩

/-! ## Spec-side definitions (for refinement-style claims) -/

/-- The spec's reading of the todo listing: items numbered from `n` upward,
each as `"<index>. <item>"`, in order.  (Defined by a counter, independent
of the source's `enumerate`.) -/
def specListing (n : Nat) : List PyStr → List PyStr
  | [] => []
  | s :: ss => ((toString n).data ++ '.' :: ' ' :: s) :: specListing (n + 1) ss

/-- An empty file system: no file exists. -/
def emptyFs : FileSys := fun _ => none

/-- A process with neither backend: no credential, no `wikipedia` module. -/
def cfg0 : Config := ⟨false, false⟩

/-- A quiet oracle for concrete instances: browser and save succeed, both
backends fail, a fixed clock. -/
def oracle0 : Oracle :=
  ⟨none, false, "2025-01-01T00:00:00".data, .failure, .failure⟩

/-- A fresh assistant state over an empty file system. -/
def st0 : AState := ⟨[], [], emptyFs⟩

/-- A file system whose every file holds text that is not JSON. -/
def badFs : FileSys := fun _ => some "not json".data

/-- A file system where the todo file holds `42`: valid JSON, but not the
array-of-records shape the rest of the program assumes. -/
def fs42 : FileSys := fun p => if p = TODO_FILE then some "42".data else none

/-! ## General helper lemmas -/

theorem dropWhile_length_le (p : Char → Bool) : ∀ l : PyStr, (l.dropWhile p).length ≤ l.length
  | [] => le_refl _
  | c :: t => by
    rw [List.dropWhile_cons]
    split
    · exact le_trans (dropWhile_length_le p t) (Nat.le_succ _)
    · exact le_refl _

theorem head_false_of_dropWhile_self {p : Char → Bool} {c : Char} {t : PyStr}
    (h : (c :: t).dropWhile p = c :: t) : p c = false := by
  by_contra hb
  rw [Bool.not_eq_false] at hb
  rw [List.dropWhile_cons, if_pos hb] at h
  have h1 := congrArg List.length h
  have h2 := dropWhile_length_le p t
  simp only [List.length_cons] at h1
  omega

theorem dropWhile_eq_self_of_pyStrip {s : PyStr} (h : pyStrip s = s) :
    s.dropWhile isPySpace = s := by
  have h1 := congrArg List.length h
  rw [pyStrip] at h1
  simp only [List.length_reverse] at h1
  have h2 := dropWhile_length_le isPySpace s
  have h3 := dropWhile_length_le isPySpace (s.dropWhile isPySpace).reverse
  rw [List.length_reverse] at h3
  have h4 := List.takeWhile_append_dropWhile (p := isPySpace) (l := s)
  have h5 := congrArg List.length h4
  simp only [List.length_append] at h5
  have h6 : (s.takeWhile isPySpace).length = 0 := by omega
  rw [List.length_eq_zero] at h6
  rw [h6] at h4
  simpa using h4

theorem rev_dropWhile_eq_self_of_pyStrip {s : PyStr} (h : pyStrip s = s) :
    s.reverse.dropWhile isPySpace = s.reverse := by
  have h1 : s = (s.reverse.dropWhile isPySpace).reverse := by
    conv_lhs => rw [← h]
    rw [pyStrip, dropWhile_eq_self_of_pyStrip h]
  have h2 := congrArg List.reverse h1
  simpa using h2.symm

theorem charOfNat_toNat {n : Nat} (h : n.isValidChar) : (Char.ofNat n).toNat = n := by
  rw [Char.ofNat, dif_pos h]
  rfl

theorem isPySpace_lowerChar (c : Char) : isPySpace (lowerChar c) = isPySpace c := by
  rw [lowerChar]
  split
  · rename_i h
    have ht : (Char.ofNat (c.toNat + 32)).toNat = c.toNat + 32 :=
      charOfNat_toNat (Or.inl (by omega))
    simp only [isPySpace, ht, decide_eq_decide]
    omega
  · rfl

theorem pyLower_append (a b : PyStr) : pyLower (a ++ b) = pyLower a ++ pyLower b :=
  List.map_append lowerChar a b

theorem strip_lower_concat (u txt : PyStr) (c0 : Char) (t0 : PyStr)
    (hu : u = c0 :: t0) (hc0 : isPySpace c0 = false)
    (hs : pyStrip txt = txt) (hn : txt ≠ []) :
    pyStrip (u ++ pyLower txt) = u ++ pyLower txt := by
  have hfront : (u ++ pyLower txt).dropWhile isPySpace = u ++ pyLower txt := by
    rw [hu, List.cons_append, List.dropWhile_cons, if_neg (by simp [hc0])]
  obtain ⟨c, w, hw⟩ : ∃ c w, txt.reverse = c :: w := by
    cases htr : txt.reverse with
    | nil => exact absurd (by simpa using congrArg List.reverse htr) hn
    | cons c w => exact ⟨c, w, rfl⟩
  have hrev := rev_dropWhile_eq_self_of_pyStrip hs
  rw [hw] at hrev
  have hcn : isPySpace c = false := head_false_of_dropWhile_self hrev
  have hback : (u ++ pyLower txt).reverse.dropWhile isPySpace
      = (u ++ pyLower txt).reverse := by
    rw [List.reverse_append, pyLower, ← List.map_reverse, hw]
    simp only [List.map_cons, List.cons_append]
    rw [List.dropWhile_cons, if_neg (by simp [isPySpace_lowerChar, hcn])]
  rw [pyStrip, hfront, hback, List.reverse_reverse]

/-! ## Claim C2: browser-launch failure handling in `_open_website` -/

/-- C2 counterexample: when the `webbrowser.open` call raises, `_open_website`
does *not* absorb the failure — it returns no reply at all (the exception
propagates as `Except.error`), and nothing is written to the diagnostic
stream.  This refutes the claim that the failure is logged and absorbed. -/
theorem c2_counterexample :
    (open_website (some "boom".data) "youtube".data).2
        = .error (.browserError "boom".data)
    ∧ (open_website (some "boom".data) "youtube".data).1.logs = []
    ∧ ¬ ∃ reply, (open_website (some "boom".data) "youtube".data).2 = .ok reply := by
  refine ⟨rfl, rfl, ?_⟩
  rintro ⟨r, h⟩
  exact Except.noConfusion h

/-- C2 (amended): `_open_website` wraps `webbrowser.open` in no handler, so
a raise propagates out of it uncaught and unlogged; a reply string is
returned exactly when the launch call does not raise, in which case that
one URL is opened. -/
theorem c2_open_website_propagates (msg target : PyStr) :
    open_website (some msg) target = ({}, .error (.browserError msg))
    ∧ open_website none target
        = ({opens := [resolveUrl target]}, .ok ("Opening ".data ++ target)) :=
  ⟨rfl, rfl⟩

/-! ## Claim C3: the knowledge fallback is total -/

/-- C3: `_answer_with_ai` always returns a reply string together with the
updated history (totality is the `Except`-free type: every arm of the
source catches its exceptions); and with no AI credential and no
`wikipedia` module it returns the fixed apology, history untouched. -/
theorem c3_answer_total_apology :
    (∀ (cfg : Config) (o : Oracle) (prompt : PyStr) (hist : List Msg),
      ∃ reply hist2, answer_with_ai cfg o prompt hist = (reply, hist2))
    ∧ (∀ (o : Oracle) (prompt : PyStr) (hist : List Msg),
        answer_with_ai cfg0 o prompt hist = (apology, hist)) :=
  ⟨fun _ _ _ _ => ⟨_, _, rfl⟩, fun _ _ _ => rfl⟩

/-! ## Claim C7: `load_json` always yields a usable value -/

/-- C7: `load_json(path, default)` returns `default` — and raises nothing,
being total — whenever the file is missing, or reading it raises, or its
contents fail to parse as JSON. -/
theorem c7_load_json_defaults (fs : FileSys) (path : String) (d : Json) :
    (fs path = none → ∀ rf, load_json fs rf path d = d)
    ∧ (∀ text, fs path = some text → load_json fs true path d = d)
    ∧ (∀ text, fs path = some text → loads text = none → load_json fs false path d = d) := by
  refine ⟨fun h rf => ?_, fun text h => ?_, fun text h hp => ?_⟩
  · simp [load_json, h]
  · simp [load_json, h]
  · simp [load_json, h, hp]

/-- C7 witness: a missing file, an I/O failure, and a corrupt file, each at
a concrete instance. -/
theorem c7_witness :
    load_json emptyFs false TODO_FILE (Json.arr []) = Json.arr []
    ∧ load_json badFs true TODO_FILE (Json.arr []) = Json.arr []
    ∧ load_json badFs false TODO_FILE (Json.arr []) = Json.arr [] :=
  ⟨(c7_load_json_defaults emptyFs TODO_FILE (Json.arr [])).1 rfl false,
   (c7_load_json_defaults badFs TODO_FILE (Json.arr [])).2.1 _ rfl,
   (c7_load_json_defaults badFs TODO_FILE (Json.arr [])).2.2 _ rfl rfl⟩

/-! ## Claim C8: an exit phrase ends the loop after one farewell -/

/-- C8: in the main loop, a recognized utterance whose lower-cased trimmed
form is an exit phrase makes the loop speak exactly the one farewell and
stop: the result is fixed no matter what the rest of the script holds, the
state is returned unchanged and no effect is performed (the utterance never
reaches `handle_command`). -/
theorem c8_exit_terminates (cfg : Config) (o : Oracle) (st : AState)
    (text : PyStr) (rest : List (Option PyStr))
    (hx : pyStrip (pyLower text) = "exit".data ∨ pyStrip (pyLower text) = "quit".data
      ∨ pyStrip (pyLower text) = "stop".data ∨ pyStrip (pyLower text) = "goodbye".data) :
    runLoop cfg o st (some text :: rest)
      = .ok ⟨["Goodbye! Have a great day!".data], st, noEff⟩ := by
  have hne : text ≠ [] := by
    rintro rfl
    rcases hx with h | h | h | h <;> exact absurd h (by decide)
  simp only [runLoop]
  rw [if_neg hne, if_pos hx]

/-- C8 witness: a concrete script whose first utterance is `"STOP"`;
the farewell is spoken once and the later `"hi"` is never processed. -/
theorem c8_witness :
    runLoop cfg0 oracle0 st0 [some "STOP".data, some "hi".data]
      = .ok ⟨["Goodbye! Have a great day!".data], st0, noEff⟩ :=
  c8_exit_terminates cfg0 oracle0 st0 "STOP".data [some "hi".data]
    (Or.inr (Or.inr (Or.inl (by decide))))

/-! ## Claim C9: the todo sequence is append-only -/

/-- C9: one `handle_command` call either leaves `todo_list` unchanged or
appends exactly one record — the old sequence is always a prefix of the new
one — and the length grows by exactly one precisely on the `"add todo "`
branch (the lower-cased trimmed utterance carrying that prefix). -/
theorem c9_append_only (cfg : Config) (o : Oracle) (st : AState) (text : PyStr) :
    (∃ t, (handle_command cfg o st text).1.todos = st.todos ++ t ∧ t.length ≤ 1)
    ∧ ((handle_command cfg o st text).1.todos.length = st.todos.length + 1
        ↔ "add todo ".data.isPrefixOf (pyStrip (pyLower text)) = true) := by
  simp only [handle_command]
  split_ifs with h1 h2 h3 h4
  · refine ⟨⟨[], by simp, by simp⟩, ?_⟩
    constructor
    · intro hlen; exact absurd hlen (by simp)
    · intro hpre
      rcases h1 with h | h | h <;> rw [h] at hpre <;> exact absurd hpre (by decide)
  · refine ⟨⟨[], by simp, by simp⟩, ?_⟩
    constructor
    · intro hlen; exact absurd hlen (by simp)
    · intro hpre
      obtain ⟨t, ht⟩ := List.isPrefixOf_iff_prefix.mp h2
      rw [← ht] at hpre
      simp [List.isPrefixOf] at hpre
  · refine ⟨⟨[encodeRec ⟨pyStrip (text.drop 9), o.now⟩], by simp [add_todo, encodeRec], by simp⟩, ?_⟩
    constructor
    · intro _; exact h3
    · intro _; simp [add_todo]
  · refine ⟨⟨[], by simp, by simp⟩, ?_⟩
    constructor
    · intro hlen; exact absurd hlen (by simp)
    · intro hpre
      rcases h4 with h | h | h <;> rw [h] at hpre <;> exact absurd hpre (by decide)
  · refine ⟨⟨[], by simp, by simp⟩, ?_⟩
    constructor
    · intro hlen; exact absurd hlen (by simp)
    · intro hpre; exact absurd hpre h3

/-! ## Claim C5: the todo listing format -/

theorem render_enumFrom (l : List TodoRecord) : ∀ n : Nat,
    List.mapM (fun p => (pyGetItem p.2 "item".data).map
        (fun v => (toString (p.1 + 1)).data ++ '.' :: ' ' :: pyStrFormat v))
      (List.enumFrom n (l.map encodeRec))
      = Except.ok (specListing (n + 1) (l.map (fun r => r.item))) := by
  induction l with
  | nil => intro n; rfl
  | cons r rs ih =>
    intro n
    have h1 : List.enumFrom n ((r :: rs).map encodeRec)
        = (n, encodeRec r) :: List.enumFrom (n + 1) (rs.map encodeRec) := rfl
    rw [h1, List.mapM_cons, ih (n + 1)]
    rfl

/-- C5: listing an empty todo sequence gives the fixed message; listing
records gives the header followed by the `"; "`-joined 1-indexed items in
insertion order (`specListing` is the spec-side renderer, defined by a
counter); and on the items `["buy milk", "call mom"]` the output is exactly
the string of the spec's example. -/
theorem c5_list_todo :
    list_todo [] = .ok "Your todo list is empty.".data
    ∧ (∀ (r : TodoRecord) (rs : List TodoRecord),
        list_todo ((r :: rs).map encodeRec)
          = .ok ("Here are your todos: ".data
              ++ List.intercalate "; ".data (specListing 1 ((r :: rs).map (fun x => x.item)))))
    ∧ list_todo [encodeRec ⟨"buy milk".data, "t1".data⟩, encodeRec ⟨"call mom".data, "t2".data⟩]
        = .ok "Here are your todos: 1. buy milk; 2. call mom".data := by
  refine ⟨rfl, ?_, by rfl⟩
  intro r rs
  have h0 : ((r :: rs).map encodeRec).isEmpty = false := rfl
  simp only [list_todo, h0, Bool.false_eq_true, if_false]
  rw [show ((r :: rs).map encodeRec).enum = List.enumFrom 0 ((r :: rs).map encodeRec) from rfl,
    render_enumFrom (r :: rs) 0]
  rfl

/-! ## Claim C10: `_list_todo` is safe on well-shaped data; `load_json` checks no shape -/

theorem mapM_ok_of_items : ∀ (l : List Json) (n : Nat),
    (∀ it ∈ l, ∃ kvs v, it = Json.obj kvs
      ∧ kvs.find? (fun kv => decide (kv.1 = "item".data)) = some v) →
    ∃ parts, List.mapM (fun p => (pyGetItem p.2 "item".data).map
        (fun v => (toString (p.1 + 1)).data ++ '.' :: ' ' :: pyStrFormat v))
      (List.enumFrom n l) = Except.ok parts
  | [], _, _ => ⟨[], rfl⟩
  | it :: l, n, h => by
    obtain ⟨kvs, v, hobj, hfind⟩ := h it (by simp)
    obtain ⟨parts, hparts⟩ := mapM_ok_of_items l (n + 1) (fun x hx => h x (by simp [hx]))
    have hget : pyGetItem it "item".data = .ok v.2 := by
      rw [hobj, pyGetItem, hfind]
    have h1 : List.enumFrom n (it :: l) = (n, it) :: List.enumFrom (n + 1) l := rfl
    refine ⟨((toString (n + 1)).data ++ '.' :: ' ' :: pyStrFormat v.2) :: parts, ?_⟩
    rw [h1, List.mapM_cons]
    simp only [hget, hparts]
    rfl

/-- C10: `_list_todo` evaluates without error on every non-empty sequence
whose every element is an object with an `"item"` key (the `KeyError` /
`TypeError` branches are unreachable under that shape); and `load_json`
validates no shape — a file holding the valid JSON `42` loads as the
number `42`, not as the default. -/
theorem c10_list_total_load_unchecked (todos : List Json)
    (hne : todos ≠ [])
    (hitems : ∀ it ∈ todos, ∃ kvs v, it = Json.obj kvs
      ∧ kvs.find? (fun kv => decide (kv.1 = "item".data)) = some v) :
    (∃ s, list_todo todos = .ok s)
    ∧ load_json fs42 false TODO_FILE (Json.arr []) = Json.num 42 := by
  constructor
  · obtain ⟨parts, hparts⟩ := mapM_ok_of_items todos 0 hitems
    have h0 : todos.isEmpty = false := by
      cases todos with
      | nil => exact absurd rfl hne
      | cons a l => rfl
    refine ⟨"Here are your todos: ".data ++ List.intercalate "; ".data parts, ?_⟩
    simp only [list_todo, h0, Bool.false_eq_true, if_false]
    rw [show todos.enum = List.enumFrom 0 todos from rfl, hparts]
    rfl
  · rfl

/-- C10 witness: the load half, reached through the theorem at a concrete
one-record list. -/
theorem c10_witness :
    load_json fs42 false TODO_FILE (Json.arr []) = Json.num 42 :=
  (c10_list_total_load_unchecked [Json.obj [("item".data, Json.str "x".data)]]
    (by simp)
    (by intro it hit
        rw [List.mem_singleton] at hit
        subst hit
        exact ⟨_, _, rfl, rfl⟩)).2

/-! ## Claim C6: the `"open <name>"` command -/

/-- C6: for an input `"open <name>"` with `<name>` trimmed and non-empty,
when the browser launch does not raise the router performs exactly one
browser open — of the shortcut URL whose key equals `<name>`
case-insensitively when there is one, of the fixed search prefix followed
by `<name>` with spaces replaced by `+` otherwise — and the reply confirms
the action. -/
theorem c6_open_command (cfg : Config) (o : Oracle) (st : AState) (name : PyStr)
    (hb : o.browserFails = none) (hs : pyStrip name = name) (hn : name ≠ []) :
    (handle_command cfg o st ("open ".data ++ name)).2.1.opens = [resolveUrl name]
    ∧ (handle_command cfg o st ("open ".data ++ name)).2.2
        = .ok ("Opening ".data ++ name)
    ∧ (∀ key url, (key, url) ∈ shortcuts → pyLower name = key → resolveUrl name = url)
    ∧ ((∀ kv ∈ shortcuts, kv.1 ≠ pyLower name) → resolveUrl name = searchUrl name) := by
  have hlow : pyStrip (pyLower ("open ".data ++ name)) = "open ".data ++ pyLower name := by
    rw [pyLower_append, show pyLower "open ".data = "open ".data from rfl]
    exact strip_lower_concat _ name 'o' _ rfl (by decide) hs hn
  have hx : (pyLower name).length ≥ 1 := by
    cases name with
    | nil => exact absurd rfl hn
    | cons c w => simp [pyLower]
  have hg : ¬("open ".data ++ pyLower name = "hi".data
      ∨ "open ".data ++ pyLower name = "hello".data
      ∨ "open ".data ++ pyLower name = "hey".data) := by
    rintro (h | h | h)
    · have hl := congrArg List.length h
      rw [List.length_append, show ("open ".data).length = 5 from rfl,
        show ("hi".data).length = 2 from rfl] at hl
      omega
    · have hl := congrArg List.length h
      rw [List.length_append, show ("open ".data).length = 5 from rfl,
        show ("hello".data).length = 5 from rfl] at hl
      omega
    · have hl := congrArg List.length h
      rw [List.length_append, show ("open ".data).length = 5 from rfl,
        show ("hey".data).length = 3 from rfl] at hl
      omega
  have hpre : "open ".data.isPrefixOf ("open ".data ++ pyLower name) = true :=
    List.isPrefixOf_iff_prefix.mpr (List.prefix_append _ _)
  have hdrop : ("open ".data ++ name).drop 5 = name := by
    rw [show (5 : Nat) = ("open ".data).length from rfl]
    exact List.drop_left _ _
  have hmain : handle_command cfg o st ("open ".data ++ name)
      = (st, (open_website none name).1, (open_website none name).2) := by
    simp only [handle_command, hlow]
    rw [if_neg hg, if_pos hpre, hdrop, hs, hb]
  refine ⟨?_, ?_, ?_, ?_⟩
  · rw [hmain]
    rfl
  · rw [hmain]
    rfl
  · intro key url hmem hkey
    simp only [shortcuts, List.mem_cons, List.mem_singleton, Prod.mk.injEq,
      List.not_mem_nil, or_false] at hmem
    rcases hmem with ⟨hk, hu⟩ | ⟨hk, hu⟩ | ⟨hk, hu⟩ <;> subst hk <;> subst hu <;>
      simp [resolveUrl, shortcuts, List.find?, hkey]
  · intro h
    have e1 : ¬(("youtube".data : PyStr) = pyLower name) := fun he =>
      h ("youtube".data, "https://www.youtube.com".data) (by simp [shortcuts]) he
    have e2 : ¬(("google".data : PyStr) = pyLower name) := fun he =>
      h ("google".data, "https://www.google.com".data) (by simp [shortcuts]) he
    have e3 : ¬(("github".data : PyStr) = pyLower name) := fun he =>
      h ("github".data, "https://github.com".data) (by simp [shortcuts]) he
    simp [resolveUrl, shortcuts, List.find?, e1, e2, e3]

/-- C6 witness: `"open youtube"` opens exactly the YouTube shortcut URL and
confirms. -/
theorem c6_witness :
    (handle_command cfg0 oracle0 st0 ("open ".data ++ "youtube".data)).2.1.opens
        = [resolveUrl "youtube".data]
    ∧ (handle_command cfg0 oracle0 st0 ("open ".data ++ "youtube".data)).2.2
        = .ok ("Opening ".data ++ "youtube".data) :=
  ⟨(c6_open_command cfg0 oracle0 st0 "youtube".data rfl (by decide) (by decide)).1,
   (c6_open_command cfg0 oracle0 st0 "youtube".data rfl (by decide) (by decide)).2.1⟩

/-! ## Claim C1: the `"add todo <text>"` command -/

/-- C1 counterexample: the claim quantifies over every utterance whose
lower-cased *trimmed* form starts with `"add todo "`, but the source slices
`text[9:]` from the *untrimmed* text.  With two leading spaces the stored
item is shifted by two: `"  add todo Milk"` passes the claim's guard, its
trimmed remainder (original casing) is `"Milk"`, yet the appended record's
`item` is `"o Milk"` — so the new last record's item is not the remainder
text.  (The reply echoes the same wrong item.) -/
theorem c1_counterexample :
    "add todo ".data.isPrefixOf (pyStrip (pyLower "  add todo Milk".data)) = true
    ∧ pyStrip "  add todo Milk".data = "add todo Milk".data
    ∧ "add todo Milk".data.drop 9 = "Milk".data
    ∧ (handle_command cfg0 oracle0 st0 "  add todo Milk".data).1.todos
        = [encodeRec ⟨"o Milk".data, "2025-01-01T00:00:00".data⟩]
    ∧ "o Milk".data ≠ "Milk".data :=
  ⟨by decide, by decide, by decide, rfl, by decide⟩

/-- C1 (amended): restricted to utterances with no leading whitespace —
written `pfx ++ txt` with `pfx` any casing of the nine-character prefix
`"add todo "` and `txt` the item text, trimmed and non-empty — exactly one
record is appended (length exactly +1), its `item` field is `txt` verbatim
with original casing, the full new sequence is serialized to the todo file
in the same call (when the write does not fail), and the reply echoes the
added item. -/
theorem c1_add_todo (cfg : Config) (o : Oracle) (st : AState) (pfx txt : PyStr)
    (hp : pyLower pfx = "add todo ".data) (hs : pyStrip txt = txt) (hn : txt ≠ []) :
    (handle_command cfg o st (pfx ++ txt)).1.todos = st.todos ++ [encodeRec ⟨txt, o.now⟩]
    ∧ (handle_command cfg o st (pfx ++ txt)).1.todos.length = st.todos.length + 1
    ∧ (handle_command cfg o st (pfx ++ txt)).2.2
        = .ok ("Added to your todo list: ".data ++ txt)
    ∧ (o.saveFails = false →
        (handle_command cfg o st (pfx ++ txt)).1.fs TODO_FILE
          = some (dumps (Json.arr (st.todos ++ [encodeRec ⟨txt, o.now⟩])))) := by
  have hlow : pyStrip (pyLower (pfx ++ txt)) = "add todo ".data ++ pyLower txt := by
    rw [pyLower_append, hp]
    exact strip_lower_concat _ txt 'a' _ rfl (by decide) hs hn
  have hlen9 : pfx.length = 9 := by
    have h := congrArg List.length hp
    simpa [pyLower] using h
  have hx : (pyLower txt).length ≥ 1 := by
    cases txt with
    | nil => exact absurd rfl hn
    | cons c w => simp [pyLower]
  have hg : ¬("add todo ".data ++ pyLower txt = "hi".data
      ∨ "add todo ".data ++ pyLower txt = "hello".data
      ∨ "add todo ".data ++ pyLower txt = "hey".data) := by
    rintro (h | h | h)
    · have hl := congrArg List.length h
      rw [List.length_append, show ("add todo ".data).length = 9 from rfl,
        show ("hi".data).length = 2 from rfl] at hl
      omega
    · have hl := congrArg List.length h
      rw [List.length_append, show ("add todo ".data).length = 9 from rfl,
        show ("hello".data).length = 5 from rfl] at hl
      omega
    · have hl := congrArg List.length h
      rw [List.length_append, show ("add todo ".data).length = 9 from rfl,
        show ("hey".data).length = 3 from rfl] at hl
      omega
  have hopen : "open ".data.isPrefixOf ("add todo ".data ++ pyLower txt) = false := by
    simp [List.isPrefixOf]
  have hadd : "add todo ".data.isPrefixOf ("add todo ".data ++ pyLower txt) = true :=
    List.isPrefixOf_iff_prefix.mpr (List.prefix_append _ _)
  have hdrop : (pfx ++ txt).drop 9 = txt := by
    rw [← hlen9]
    exact List.drop_left _ _
  have hmain : handle_command cfg o st (pfx ++ txt) = add_todo o st txt := by
    simp only [handle_command, hlow]
    rw [if_neg hg, if_neg (by simp [hopen]), if_pos hadd, hdrop, hs]
  refine ⟨by rw [hmain]; rfl, by rw [hmain]; simp [add_todo], by rw [hmain]; rfl, ?_⟩
  intro hsf
  rw [hmain]
  simp only [add_todo, save_json, hsf, Bool.false_eq_true, if_false]
  rfl

/-- C1 witness: `"add todo Read"` on a fresh state appends the one record
with item `"Read"` and writes the serialized singleton sequence. -/
theorem c1_witness :
    (handle_command cfg0 oracle0 st0 ("add todo ".data ++ "Read".data)).1.todos
        = st0.todos ++ [encodeRec ⟨"Read".data, oracle0.now⟩]
    ∧ (handle_command cfg0 oracle0 st0 ("add todo ".data ++ "Read".data)).1.fs TODO_FILE
        = some (dumps (Json.arr (st0.todos ++ [encodeRec ⟨"Read".data, oracle0.now⟩]))) :=
  ⟨(c1_add_todo cfg0 oracle0 st0 "add todo ".data "Read".data
      (by decide) (by decide) (by decide)).1,
   (c1_add_todo cfg0 oracle0 st0 "add todo ".data "Read".data
      (by decide) (by decide) (by decide)).2.2.2 rfl⟩

/-! ## Claim C4: the save/load round trip.  First the string codec. -/

theorem hexVal_hexDigitChar : ∀ d : Nat, d < 16 → hexVal (hexDigitChar d) = some d := by
  decide

theorem hex4_u4 (n : Nat) (h : n < 65536) :
    hex4 (hexDigitChar (n / 4096 % 16)) (hexDigitChar (n / 256 % 16))
      (hexDigitChar (n / 16 % 16)) (hexDigitChar (n % 16)) = some n := by
  rw [hex4, hexVal_hexDigitChar _ (Nat.mod_lt _ (by omega)),
    hexVal_hexDigitChar _ (Nat.mod_lt _ (by omega)),
    hexVal_hexDigitChar _ (Nat.mod_lt _ (by omega)),
    hexVal_hexDigitChar _ (Nat.mod_lt _ (by omega))]
  show some (n / 4096 % 16 * 4096 + n / 256 % 16 * 256 + n / 16 % 16 * 16 + n % 16) = some n
  exact congrArg some (by omega)

theorem char_valid_nat (c : Char) :
    c.toNat < 0xd800 ∨ (0xdfff < c.toNat ∧ c.toNat < 0x110000) := c.valid

theorem pStrAux_quote (rest : PyStr) : pStrAux ('\"' :: rest) = some ([], rest) := by
  rw [pStrAux]
  rfl

theorem pStrAux_plain (c : Char) (rest : PyStr) (h1 : c ≠ '\"') (h2 : c ≠ '\\')
    (h3 : ¬ c.toNat < 0x20) :
    pStrAux (c :: rest) = (pStrAux rest).map (fun p => (c :: p.1, p.2)) := by
  rw [pStrAux, if_neg h1, if_neg h2, if_neg h3]

theorem pStrAux_bslash (rest : PyStr) : pStrAux ('\\' :: rest) = pEscSeq rest := by
  rw [pStrAux]
  rfl

theorem pEscSeq_u (rest1 : PyStr) : pEscSeq ('u' :: rest1) = pHexSeq rest1 := by
  rw [pEscSeq]
  rfl

theorem pEscSeq_simple (e ec : Char) (rest1 : PyStr) (hne : e ≠ 'u')
    (hesc : simpleEsc e = some ec) :
    pEscSeq (e :: rest1) = (pStrAux rest1).map (fun p => (ec :: p.1, p.2)) := by
  rw [pEscSeq, if_neg hne, hesc]

theorem pHexSeq_val (a b c2 d : Char) (rest2 : PyStr) (n : Nat)
    (hh : hex4 a b c2 d = some n) (hscal : n < 0xd800 ∨ 0xe000 ≤ n) :
    pHexSeq (a :: b :: c2 :: d :: rest2)
      = (pStrAux rest2).map (fun p => (Char.ofNat n :: p.1, p.2)) := by
  rw [pHexSeq, hh]
  show (if n < 0xd800 ∨ 0xe000 ≤ n then
      (pStrAux rest2).map (fun p => (Char.ofNat n :: p.1, p.2))
    else if n < 0xdc00 then pPairSeq n rest2 else none)
      = (pStrAux rest2).map (fun p => (Char.ofNat n :: p.1, p.2))
  rw [if_pos hscal]

theorem pHexSeq_high (a b c2 d : Char) (rest2 : PyStr) (n : Nat)
    (hh : hex4 a b c2 d = some n) (hd1 : 0xd800 ≤ n) (hd2 : n < 0xdc00) :
    pHexSeq (a :: b :: c2 :: d :: rest2) = pPairSeq n rest2 := by
  rw [pHexSeq, hh]
  show (if n < 0xd800 ∨ 0xe000 ≤ n then
      (pStrAux rest2).map (fun p => (Char.ofNat n :: p.1, p.2))
    else if n < 0xdc00 then pPairSeq n rest2 else none) = pPairSeq n rest2
  rw [if_neg (by omega), if_pos hd2]

theorem pPairSeq_val (n : Nat) (a2 b3 c3 d2 : Char) (rest3 : PyStr) (m : Nat)
    (hh : hex4 a2 b3 c3 d2 = some m) (hm : 0xdc00 ≤ m ∧ m < 0xe000) :
    pPairSeq n ('\\' :: 'u' :: a2 :: b3 :: c3 :: d2 :: rest3)
      = (pStrAux rest3).map (fun p =>
          (Char.ofNat ((n - 0xd800) * 0x400 + (m - 0xdc00) + 0x10000) :: p.1, p.2)) := by
  rw [pPairSeq, if_pos ⟨rfl, rfl⟩, hh]
  show (if 0xdc00 ≤ m ∧ m < 0xe000 then
      (pStrAux rest3).map (fun p =>
        (Char.ofNat ((n - 0xd800) * 0x400 + (m - 0xdc00) + 0x10000) :: p.1, p.2))
    else none)
      = (pStrAux rest3).map (fun p =>
          (Char.ofNat ((n - 0xd800) * 0x400 + (m - 0xdc00) + 0x10000) :: p.1, p.2))
  rw [if_pos hm]

theorem pStrAux_escChar (c : Char) (tail : PyStr) (v : PyStr × PyStr)
    (ih : pStrAux tail = some v) :
    pStrAux (escChar c ++ tail) = some (c :: v.1, v.2) := by
  by_cases h1 : c = '\"'
  · subst h1
    rw [show escChar '\"' ++ tail = '\\' :: '\"' :: tail from rfl,
      pStrAux_bslash, pEscSeq_simple '\"' '\"' tail (by decide) rfl, ih]
    rfl
  by_cases h2 : c = '\\'
  · subst h2
    rw [show escChar '\\' ++ tail = '\\' :: '\\' :: tail from rfl,
      pStrAux_bslash, pEscSeq_simple '\\' '\\' tail (by decide) rfl, ih]
    rfl
  by_cases h3 : c = '\n'
  · subst h3
    rw [show escChar '\n' ++ tail = '\\' :: 'n' :: tail from rfl,
      pStrAux_bslash, pEscSeq_simple 'n' '\n' tail (by decide) rfl, ih]
    rfl
  by_cases h4 : c = '\t'
  · subst h4
    rw [show escChar '\t' ++ tail = '\\' :: 't' :: tail from rfl,
      pStrAux_bslash, pEscSeq_simple 't' '\t' tail (by decide) rfl, ih]
    rfl
  by_cases h5 : c = '\r'
  · subst h5
    rw [show escChar '\r' ++ tail = '\\' :: 'r' :: tail from rfl,
      pStrAux_bslash, pEscSeq_simple 'r' '\r' tail (by decide) rfl, ih]
    rfl
  by_cases h6 : c = '\x08'
  · subst h6
    rw [show escChar '\x08' ++ tail = '\\' :: 'b' :: tail from rfl,
      pStrAux_bslash, pEscSeq_simple 'b' '\x08' tail (by decide) rfl, ih]
    rfl
  by_cases h7 : c = '\x0c'
  · subst h7
    rw [show escChar '\x0c' ++ tail = '\\' :: 'f' :: tail from rfl,
      pStrAux_bslash, pEscSeq_simple 'f' '\x0c' tail (by decide) rfl, ih]
    rfl
  by_cases h8 : 0x20 ≤ c.toNat ∧ c.toNat ≤ 0x7e
  · have he : escChar c = [c] := by
      rw [escChar, if_neg h1, if_neg h2, if_neg h3, if_neg h4, if_neg h5, if_neg h6, if_neg h7,
        if_pos h8]
    rw [he, List.cons_append, List.nil_append,
      pStrAux_plain c tail h1 h2 (by omega), ih]
    rfl
  by_cases h9 : c.toNat < 0x10000
  · have he : escChar c = '\\' :: 'u' :: u4 c.toNat := by
      rw [escChar, if_neg h1, if_neg h2, if_neg h3, if_neg h4, if_neg h5, if_neg h6, if_neg h7,
        if_neg h8, if_pos h9]
    have hscal : c.toNat < 0xd800 ∨ 0xe000 ≤ c.toNat := by
      rcases char_valid_nat c with h | h
      · exact Or.inl h
      · exact Or.inr (by omega)
    rw [he, u4]
    simp only [List.cons_append, List.nil_append]
    rw [pStrAux_bslash, pEscSeq_u,
      pHexSeq_val _ _ _ _ tail c.toNat (hex4_u4 c.toNat (by omega)) hscal,
      Char.ofNat_toNat, ih]
    rfl
  · have hb : 0x10000 ≤ c.toNat ∧ c.toNat < 0x110000 := by
      rcases char_valid_nat c with h | h
      · omega
      · omega
    have he : escChar c = '\\' :: 'u' :: u4 (0xd800 + (c.toNat - 0x10000) / 0x400)
        ++ '\\' :: 'u' :: u4 (0xdc00 + (c.toNat - 0x10000) % 0x400) := by
      rw [escChar, if_neg h1, if_neg h2, if_neg h3, if_neg h4, if_neg h5, if_neg h6, if_neg h7,
        if_neg h8, if_neg h9]
    rw [he, u4, u4]
    simp only [List.cons_append, List.nil_append, List.append_assoc]
    rw [pStrAux_bslash, pEscSeq_u,
      pHexSeq_high _ _ _ _ _ (0xd800 + (c.toNat - 0x10000) / 0x400)
        (hex4_u4 _ (by omega)) (by omega) (by omega),
      pPairSeq_val _ _ _ _ _ _ (0xdc00 + (c.toNat - 0x10000) % 0x400)
        (hex4_u4 _ (by omega)) ⟨by omega, by omega⟩,
      show (0xd800 + (c.toNat - 0x10000) / 0x400 - 0xd800) * 0x400
          + (0xdc00 + (c.toNat - 0x10000) % 0x400 - 0xdc00) + 0x10000 = c.toNat from by omega,
      Char.ofNat_toNat, ih]
    rfl

theorem pStrAux_escList : ∀ (cs : PyStr) (rest : PyStr),
    pStrAux (escList cs ++ '\"' :: rest) = some (cs, rest)
  | [], rest => by
    rw [escList, List.nil_append, pStrAux_quote]
  | c :: cs, rest => by
    rw [escList, List.append_assoc]
    exact pStrAux_escChar c _ (cs, rest) (pStrAux_escList cs rest)

theorem skipWs_not (c : Char) (h : isJsonWs c = false) (s : PyStr) :
    skipWs (c :: s) = c :: s := by
  simp [skipWs, List.dropWhile_cons, h]

theorem skipWs_ws (c : Char) (h : isJsonWs c = true) (s : PyStr) :
    skipWs (c :: s) = skipWs s := by
  simp [skipWs, List.dropWhile_cons, h]

theorem skipWs_replicate (n : Nat) (s : PyStr) :
    skipWs (List.replicate n ' ' ++ s) = skipWs s := by
  induction n with
  | zero => rw [List.replicate_zero, List.nil_append]
  | succ k ih => rw [List.replicate_succ, List.cons_append, skipWs_ws ' ' rfl, ih]

theorem skipWs_ind (lv : Nat) (s : PyStr) : skipWs (ind lv ++ s) = skipWs s := by
  rw [ind, skipWs_replicate]

theorem pVal_eq_of_skipWs (g : Nat) (s s' : PyStr) (h : skipWs s = skipWs s') :
    pVal (g + 1) s = pVal (g + 1) s' := by
  rw [pVal, pVal, h]

theorem pVal_str (g : Nat) (s cs rest : PyStr)
    (h : skipWs s = '\"' :: (escList cs ++ '\"' :: rest)) :
    pVal (g + 1) s = some (.str cs, rest) := by
  rw [pVal, h]
  show (pStrAux (escList cs ++ '\"' :: rest)).map (fun p => (Json.str p.1, p.2))
    = some (.str cs, rest)
  rw [pStrAux_escList]
  rfl

theorem pVal_obj (g : Nat) (s rest : PyStr) (h : skipWs s = '\x7b' :: rest) :
    pVal (g + 1) s = pObj g rest := by
  rw [pVal, h]
  rfl

theorem pVal_arr (g : Nat) (s rest : PyStr) (h : skipWs s = '[' :: rest) :
    pVal (g + 1) s = pArr g rest := by
  rw [pVal, h]
  rfl

theorem pObj_members (g : Nat) (rest : PyStr) (r0 : Char) (r' : PyStr)
    (h : skipWs rest = r0 :: r') (hne : ¬ r0 = '\x7d') :
    pObj (g + 1) rest = (pMembers g rest).map (fun p => (Json.obj p.1, p.2)) := by
  rw [pObj, h]
  show (if r0 = '\x7d' then some (Json.obj [], r')
      else (pMembers g rest).map (fun p => (Json.obj p.1, p.2)))
    = (pMembers g rest).map (fun p => (Json.obj p.1, p.2))
  rw [if_neg hne]

theorem pArr_items (g : Nat) (rest : PyStr) (r0 : Char) (r' : PyStr)
    (h : skipWs rest = r0 :: r') (hne : ¬ r0 = ']') :
    pArr (g + 1) rest = (pItems g rest).map (fun p => (Json.arr p.1, p.2)) := by
  rw [pArr, h]
  show (if r0 = ']' then some (Json.arr [], r')
      else (pItems g rest).map (fun p => (Json.arr p.1, p.2)))
    = (pItems g rest).map (fun p => (Json.arr p.1, p.2))
  rw [if_neg hne]

theorem pMembers_cons (g : Nat) (s k cs Z rest' : PyStr)
    (h : skipWs s = '\"' :: (escList k ++ '\"' ::
      (':' :: ' ' :: ('\"' :: (escList cs ++ '\"' :: Z)))))
    (hZ : skipWs Z = ',' :: rest') :
    pMembers (g + 2) s
      = (pMembers (g + 1) rest').map (fun (p : List (PyStr × Json) × PyStr) => ((k, Json.str cs) :: p.1, p.2)) := by
  show pMembers (g + 1 + 1) s = _
  rw [pMembers, h]
  show (match pStrAux (escList k ++ '\"' ::
      (':' :: ' ' :: ('\"' :: (escList cs ++ '\"' :: Z)))) with
    | none => none
    | some (k', r1) =>
      match skipWs r1 with
      | t0 :: r2 =>
        if t0 = ':' then
          match pVal (g + 1) r2 with
          | none => none
          | some (v, r3) =>
            match skipWs r3 with
            | u0 :: r4 =>
              if u0 = ',' then (pMembers (g + 1) r4).map (fun (p : List (PyStr × Json) × PyStr) => ((k', v) :: p.1, p.2))
              else if u0 = '\x7d' then some ([(k', v)], r4)
              else none
            | [] => none
        else none
      | [] => none) = _
  rw [pStrAux_escList]
  show (match skipWs (':' :: ' ' :: ('\"' :: (escList cs ++ '\"' :: Z))) with
    | t0 :: r2 =>
      if t0 = ':' then
        match pVal (g + 1) r2 with
        | none => none
        | some (v, r3) =>
          match skipWs r3 with
          | u0 :: r4 =>
            if u0 = ',' then (pMembers (g + 1) r4).map (fun (p : List (PyStr × Json) × PyStr) => ((k, v) :: p.1, p.2))
            else if u0 = '\x7d' then some ([(k, v)], r4)
            else none
          | [] => none
      else none
    | [] => none) = _
  rw [skipWs_not ':' rfl]
  show (match pVal (g + 1) (' ' :: ('\"' :: (escList cs ++ '\"' :: Z))) with
    | none => none
    | some (v, r3) =>
      match skipWs r3 with
      | u0 :: r4 =>
        if u0 = ',' then (pMembers (g + 1) r4).map (fun (p : List (PyStr × Json) × PyStr) => ((k, v) :: p.1, p.2))
        else if u0 = '\x7d' then some ([(k, v)], r4)
        else none
      | [] => none) = _
  rw [pVal_str g (' ' :: ('\"' :: (escList cs ++ '\"' :: Z))) cs Z
    (by rw [skipWs_ws ' ' rfl, skipWs_not '\"' rfl])]
  show (match skipWs Z with
    | u0 :: r4 =>
      if u0 = ',' then (pMembers (g + 1) r4).map (fun (p : List (PyStr × Json) × PyStr) => ((k, Json.str cs) :: p.1, p.2))
      else if u0 = '\x7d' then some ([(k, Json.str cs)], r4)
      else none
    | [] => none) = _
  rw [hZ]
  rfl

theorem pMembers_last (g : Nat) (s k cs Z tail : PyStr)
    (h : skipWs s = '\"' :: (escList k ++ '\"' ::
      (':' :: ' ' :: ('\"' :: (escList cs ++ '\"' :: Z)))))
    (hZ : skipWs Z = '\x7d' :: tail) :
    pMembers (g + 2) s = some ([(k, Json.str cs)], tail) := by
  show pMembers (g + 1 + 1) s = _
  rw [pMembers, h]
  show (match pStrAux (escList k ++ '\"' ::
      (':' :: ' ' :: ('\"' :: (escList cs ++ '\"' :: Z)))) with
    | none => none
    | some (k', r1) =>
      match skipWs r1 with
      | t0 :: r2 =>
        if t0 = ':' then
          match pVal (g + 1) r2 with
          | none => none
          | some (v, r3) =>
            match skipWs r3 with
            | u0 :: r4 =>
              if u0 = ',' then (pMembers (g + 1) r4).map (fun (p : List (PyStr × Json) × PyStr) => ((k', v) :: p.1, p.2))
              else if u0 = '\x7d' then some ([(k', v)], r4)
              else none
            | [] => none
        else none
      | [] => none) = _
  rw [pStrAux_escList]
  show (match skipWs (':' :: ' ' :: ('\"' :: (escList cs ++ '\"' :: Z))) with
    | t0 :: r2 =>
      if t0 = ':' then
        match pVal (g + 1) r2 with
        | none => none
        | some (v, r3) =>
          match skipWs r3 with
          | u0 :: r4 =>
            if u0 = ',' then (pMembers (g + 1) r4).map (fun (p : List (PyStr × Json) × PyStr) => ((k, v) :: p.1, p.2))
            else if u0 = '\x7d' then some ([(k, v)], r4)
            else none
          | [] => none
      else none
    | [] => none) = _
  rw [skipWs_not ':' rfl]
  show (match pVal (g + 1) (' ' :: ('\"' :: (escList cs ++ '\"' :: Z))) with
    | none => none
    | some (v, r3) =>
      match skipWs r3 with
      | u0 :: r4 =>
        if u0 = ',' then (pMembers (g + 1) r4).map (fun (p : List (PyStr × Json) × PyStr) => ((k, v) :: p.1, p.2))
        else if u0 = '\x7d' then some ([(k, v)], r4)
        else none
      | [] => none) = _
  rw [pVal_str g (' ' :: ('\"' :: (escList cs ++ '\"' :: Z))) cs Z
    (by rw [skipWs_ws ' ' rfl, skipWs_not '\"' rfl])]
  show (match skipWs Z with
    | u0 :: r4 =>
      if u0 = ',' then (pMembers (g + 1) r4).map (fun (p : List (PyStr × Json) × PyStr) => ((k, Json.str cs) :: p.1, p.2))
      else if u0 = '\x7d' then some ([(k, Json.str cs)], r4)
      else none
    | [] => none) = _
  rw [hZ]
  rfl

theorem dumpRec_shape (r : TodoRecord) (lv : Nat) (tail : PyStr) :
    dumpVal (encodeRec r) lv ++ tail
      = '\x7b' :: '\n' :: (ind (lv + 1) ++ ('\"' :: (escList "item".data ++ '\"' ::
          (':' :: ' ' :: ('\"' :: (escList r.item ++ '\"' ::
            (',' :: '\n' :: (ind (lv + 1) ++ ('\"' :: (escList "added_at".data ++ '\"' ::
              (':' :: ' ' :: ('\"' :: (escList r.added_at ++ '\"' ::
                ('\n' :: (ind lv ++ '\x7d' :: tail))))))))))))))) := by
  simp only [encodeRec, dumpVal, dumpMembers, dq, List.append_assoc, List.cons_append,
    List.nil_append, List.append_nil]

theorem pMembers_rec (g : Nat) (r : TodoRecord) (s : PyStr) (lv lv2 : Nat) (tail : PyStr)
    (h : skipWs s = '\"' :: (escList "item".data ++ '\"' ::
      (':' :: ' ' :: ('\"' :: (escList r.item ++ '\"' ::
        (',' :: '\n' :: (ind lv ++ ('\"' :: (escList "added_at".data ++ '\"' ::
          (':' :: ' ' :: ('\"' :: (escList r.added_at ++ '\"' ::
            ('\n' :: (ind lv2 ++ '\x7d' :: tail)))))))))))))) :
    pMembers (g + 3) s
      = some ([("item".data, Json.str r.item), ("added_at".data, Json.str r.added_at)],
          tail) := by
  have h2 := pMembers_last g
    ('\n' :: (ind lv ++ ('\"' :: (escList "added_at".data ++ '\"' ::
      (':' :: ' ' :: ('\"' :: (escList r.added_at ++ '\"' ::
        ('\n' :: (ind lv2 ++ '\x7d' :: tail)))))))))
    "added_at".data r.added_at ('\n' :: (ind lv2 ++ '\x7d' :: tail)) tail
    (by rw [skipWs_ws '\n' rfl, skipWs_ind, skipWs_not '\"' rfl])
    (by rw [skipWs_ws '\n' rfl, skipWs_ind, skipWs_not '\x7d' rfl])
  have h1 := pMembers_cons (g + 1) s "item".data r.item
    (',' :: '\n' :: (ind lv ++ ('\"' :: (escList "added_at".data ++ '\"' ::
      (':' :: ' ' :: ('\"' :: (escList r.added_at ++ '\"' ::
        ('\n' :: (ind lv2 ++ '\x7d' :: tail)))))))))
    ('\n' :: (ind lv ++ ('\"' :: (escList "added_at".data ++ '\"' ::
      (':' :: ' ' :: ('\"' :: (escList r.added_at ++ '\"' ::
        ('\n' :: (ind lv2 ++ '\x7d' :: tail)))))))))
    h (by rw [skipWs_not ',' rfl])
  show pMembers (g + 1 + 2) s = _
  rw [h1, show g + 1 + 1 = g + 2 from rfl, h2]
  rfl

theorem pVal_rec (g : Nat) (r : TodoRecord) (lv : Nat) (tail : PyStr) :
    pVal (g + 5) (dumpVal (encodeRec r) lv ++ tail) = some (encodeRec r, tail) := by
  rw [dumpRec_shape]
  show pVal (g + 4 + 1) _ = _
  rw [pVal_obj (g + 4) _ _ (skipWs_not '\x7b' rfl _)]
  show pObj (g + 3 + 1) _ = _
  rw [pObj_members (g + 3) _ '\"' _
    (by rw [skipWs_ws '\n' rfl, skipWs_ind, skipWs_not '\"' rfl]) (by decide)]
  rw [pMembers_rec g r _ (lv + 1) lv tail
    (by rw [skipWs_ws '\n' rfl, skipWs_ind, skipWs_not '\"' rfl])]
  rfl

theorem pItems_todos : ∀ (rs : List TodoRecord) (g : Nat) (r : TodoRecord) (s : PyStr)
    (lv : Nat) (tail : PyStr),
    skipWs s = skipWs (dumpVal (encodeRec r) (lv + 1)
      ++ (dumpItems (rs.map encodeRec) (lv + 1) ++ '\n' :: (ind lv ++ ']' :: tail)))
    → pItems (6 * rs.length + g + 6) s = some ((r :: rs).map encodeRec, tail)
  | [], g, r, s, lv, tail => fun h => by
    simp only [List.map_nil, dumpItems, List.nil_append] at h
    have hv : pVal (g + 5) s = some (encodeRec r, '\n' :: (ind lv ++ ']' :: tail)) :=
      (pVal_eq_of_skipWs (g + 4) s _ h).trans
        (pVal_rec g r (lv + 1) ('\n' :: (ind lv ++ ']' :: tail)))
    rw [show 6 * ([] : List TodoRecord).length + g + 6 = g + 5 + 1 from by
      simp only [List.length_nil, Nat.mul_zero, Nat.zero_add]]
    rw [pItems, hv]
    show (match skipWs ('\n' :: (ind lv ++ ']' :: tail)) with
      | r0 :: r2 =>
        if r0 = ',' then
          (pItems (g + 5) r2).map (fun (p : List Json × PyStr) => (encodeRec r :: p.1, p.2))
        else if r0 = ']' then some ([encodeRec r], r2)
        else none
      | [] => none) = _
    rw [skipWs_ws '\n' rfl, skipWs_ind, skipWs_not ']' rfl]
    rfl
  | r' :: rs', g, r, s, lv, tail => fun h => by
    simp only [List.map_cons, dumpItems, List.append_assoc, List.cons_append] at h
    have hv : pVal (6 * rs'.length + (g + 5) + 6) s
        = some (encodeRec r, ',' :: '\n' :: (ind (lv + 1) ++ (dumpVal (encodeRec r') (lv + 1)
            ++ (dumpItems (rs'.map encodeRec) (lv + 1) ++ '\n' :: (ind lv ++ ']' :: tail))))) :=
      (pVal_eq_of_skipWs (6 * rs'.length + (g + 5) + 5) s _ h).trans
        (pVal_rec (6 * rs'.length + (g + 5) + 1) r (lv + 1) _)
    have h2 := pItems_todos rs' (g + 5) r'
      ('\n' :: (ind (lv + 1) ++ (dumpVal (encodeRec r') (lv + 1)
        ++ (dumpItems (rs'.map encodeRec) (lv + 1) ++ '\n' :: (ind lv ++ ']' :: tail)))))
      lv tail (by rw [skipWs_ws '\n' rfl, skipWs_ind])
    rw [show 6 * (r' :: rs').length + g + 6 = 6 * rs'.length + (g + 5) + 6 + 1 from by
      simp only [List.length_cons]; omega]
    rw [pItems, hv]
    show (match skipWs (',' :: '\n' :: (ind (lv + 1) ++ (dumpVal (encodeRec r') (lv + 1)
        ++ (dumpItems (rs'.map encodeRec) (lv + 1) ++ '\n' :: (ind lv ++ ']' :: tail))))) with
      | r0 :: r2 =>
        if r0 = ',' then
          (pItems (6 * rs'.length + (g + 5) + 6) r2).map
            (fun (p : List Json × PyStr) => (encodeRec r :: p.1, p.2))
        else if r0 = ']' then some ([encodeRec r], r2)
        else none
      | [] => none) = _
    rw [skipWs_not ',' rfl]
    show (pItems (6 * rs'.length + (g + 5) + 6)
        ('\n' :: (ind (lv + 1) ++ (dumpVal (encodeRec r') (lv + 1)
          ++ (dumpItems (rs'.map encodeRec) (lv + 1) ++ '\n' :: (ind lv ++ ']' :: tail)))))).map
        (fun (p : List Json × PyStr) => (encodeRec r :: p.1, p.2)) = _
    rw [h2]
    rfl

theorem dumpRec_len (r : TodoRecord) (lv : Nat) : 7 ≤ (dumpVal (encodeRec r) lv).length := by
  have h := congrArg List.length (dumpRec_shape r lv [])
  rw [List.append_nil] at h
  rw [h]
  simp only [List.length_cons, List.length_append]
  omega

theorem dumpItems_todos_len : ∀ (xs : List TodoRecord) (lv : Nat),
    6 * xs.length ≤ (dumpItems (xs.map encodeRec) lv).length
  | [], lv => by simp [dumpItems]
  | x :: xs, lv => by
    have h1 := dumpRec_len x lv
    have h2 := dumpItems_todos_len xs lv
    simp only [List.map_cons, dumpItems, List.length_cons, List.length_append]
    omega

theorem loads_dumps_todos (l : List TodoRecord) :
    loads (dumps (encodeTodos l)) = some (encodeTodos l) := by
  cases l with
  | nil => rfl
  | cons r rs =>
    have hsh : dumps (encodeTodos (r :: rs))
        = '[' :: '\n' :: (ind (0 + 1) ++ (dumpVal (encodeRec r) (0 + 1)
          ++ (dumpItems (rs.map encodeRec) (0 + 1) ++ '\n' :: (ind 0 ++ [']'])))) := by
      simp only [dumps, encodeTodos, List.map_cons, dumpVal, List.append_assoc,
        List.cons_append]
    have hL : 6 * rs.length + 7 ≤ (dumps (encodeTodos (r :: rs))).length := by
      have h1 := dumpRec_len r (0 + 1)
      have h2 := dumpItems_todos_len rs (0 + 1)
      rw [hsh]
      simp only [List.length_cons, List.length_append]
      omega
    obtain ⟨g, hg⟩ : ∃ g, (dumps (encodeTodos (r :: rs))).length = 6 * rs.length + g + 7 :=
      ⟨(dumps (encodeTodos (r :: rs))).length - (6 * rs.length + 7), by omega⟩
    have harr : pVal (6 * rs.length + g + 7 + 1) (dumps (encodeTodos (r :: rs)))
        = some (Json.arr ((r :: rs).map encodeRec), []) := by
      rw [hsh]
      rw [pVal_arr (6 * rs.length + g + 7) _ _ (skipWs_not '[' rfl _)]
      show pArr (6 * rs.length + g + 6 + 1) _ = _
      rw [pArr_items (6 * rs.length + g + 6)
        ('\n' :: (ind (0 + 1) ++ (dumpVal (encodeRec r) (0 + 1)
          ++ (dumpItems (rs.map encodeRec) (0 + 1) ++ '\n' :: (ind 0 ++ [']'])))))
        '\x7b' _
        (by rw [skipWs_ws '\n' rfl, skipWs_ind, dumpRec_shape, skipWs_not '\x7b' rfl])
        (by decide)]
      rw [pItems_todos rs g r
        ('\n' :: (ind (0 + 1) ++ (dumpVal (encodeRec r) (0 + 1)
          ++ (dumpItems (rs.map encodeRec) (0 + 1) ++ '\n' :: (ind 0 ++ [']'])))))
        0 [] (by rw [skipWs_ws '\n' rfl, skipWs_ind])]
      rfl
    rw [loads, hg, harr]
    rfl

/-- **C4.** For every todo sequence (as its JSON encoding), if `save_json`
completes without I/O failure then a subsequent `load_json` of the same path
returns a value equal to the saved one, for any prior file system, path and
default: the save/load round trip is lossless. -/
theorem c4_save_load_round_trip (fs : FileSys) (path : String) (d : Json)
    (l : List TodoRecord) :
    load_json (save_json fs false path (encodeTodos l)).1 false path d = encodeTodos l := by
  rw [save_json]
  show load_json (fun p => if p = path then some (dumps (encodeTodos l)) else fs p)
    false path d = encodeTodos l
  rw [load_json]
  show (match (if path = path then some (dumps (encodeTodos l)) else fs path) with
    | none => d
    | some text => if (false : Bool) then d else (loads text).getD d) = encodeTodos l
  rw [if_pos rfl]
  show (loads (dumps (encodeTodos l))).getD d = encodeTodos l
  rw [loads_dumps_todos]
  rfl
